import Mathlib

/-!
Verification of the confluence-exporter pipeline: the paginated collector
(GetSpaces / GetPages / GetChildPages), the recursive page-tree resolver
(fetchPageTree / collectChildPages), the transport (sendRequest), the
embedded-store sink (InitDB / InsertPage), the per-page failure isolation of
exportSpace, and the filename sanitiser (getSafeFilename).

The Go source is shallowly embedded: HTTP interactions become explicit
response functions passed as parameters, unbounded `for` loops and
recursion on a remote graph become fuel-indexed functions returning
`Option` (with `none` meaning the computation did not complete within the
given fuel), and Go `error` values become `Except`.
-/

namespace ConfluenceExporter

/-! ## Data model (internal/models) -/

/-- Page mirrors models.Page as populated by the API client: ID, Title,
SpaceKey, ParentID (empty for roots), Version, Content (body.storage.value)
and URL (_links.webui). -/
structure Page where
  ID : String
  Title : String
  SpaceKey : String
  ParentID : String := ""
  Version : Nat := 0
  Content : String := ""
  URL : String := ""
deriving Repr, DecidableEq

/-- Space mirrors models.Space (only the key is used by the exporter). -/
structure Space where
  Key : String
deriving Repr, DecidableEq

/-- RawPage is the anonymous struct decoded from one element of a
`results` array by GetPages / GetChildPages: id, title, space.key,
body.storage.value, version.number and _links.webui. -/
structure RawPage where
  id : String
  title : String
  spaceKey : String
  bodyValue : String
  versionNumber : Nat
  webui : String
deriving Repr, DecidableEq

/-! ## Paginated collector

GetSpaces, GetPages and GetChildPages share one loop shape: starting at
`start = 0` with `limit = 25`, request the page at offset `start`, append
its records, stop when a page holds strictly fewer than `limit` records,
otherwise advance `start` by `limit`.  `resp start` abstracts one
round-trip (sendRequest plus JSON decode) and yields either the decoded
`results` array or the error the Go code would return.  The loop is
fuel-indexed; `none` means the loop did not reach a short page within
`fuel` iterations.  Alongside the accumulated records we return the list
of offsets actually requested, one entry per round-trip. -/

def collectLoop {E α : Type} (resp : Nat → Except E (List α)) (limit : Nat) :
    Nat → Nat → Option (Except E (List α × List Nat))
  | 0, _ => none
  | fuel + 1, start =>
    match resp start with
    | .error e => some (.error e)
    | .ok page =>
      if page.length < limit then
        some (.ok (page, [start]))
      else
        match collectLoop resp limit fuel (start + limit) with
        | none => none
        | some (.error e) => some (.error e)
        | some (.ok pr) => some (.ok (page ++ pr.1, start :: pr.2))

/-- pageOfRaw is the struct-to-model conversion inside GetPages' loop;
GetPages never sets ParentID, so it stays at its zero value. -/
def pageOfRaw (p : RawPage) : Page :=
  { ID := p.id, Title := p.title, SpaceKey := p.spaceKey,
    Version := p.versionNumber, Content := p.bodyValue, URL := p.webui }

/-- childPageOfRaw is the conversion inside GetChildPages' loop, which
additionally sets ParentID to the queried parent page id. -/
def childPageOfRaw (parentPageID : String) (p : RawPage) : Page :=
  { ID := p.id, Title := p.title, SpaceKey := p.spaceKey,
    Version := p.versionNumber, Content := p.bodyValue, URL := p.webui,
    ParentID := parentPageID }

/-- GetSpaces collects /rest/api/space pages with limit 25 from start 0. -/
def GetSpaces {E : Type} (resp : Nat → Except E (List Space)) (fuel : Nat) :
    Option (Except E (List Space)) :=
  (collectLoop resp 25 fuel 0).map (Except.map Prod.fst)

/-- GetPages collects /rest/api/content pages with limit 25 from start 0
and converts each decoded record with pageOfRaw. -/
def GetPages {E : Type} (resp : Nat → Except E (List RawPage)) (fuel : Nat) :
    Option (Except E (List Page)) :=
  (collectLoop resp 25 fuel 0).map (Except.map (fun pr => pr.1.map pageOfRaw))

/-- GetChildPages collects /rest/api/content/id/child/page with limit 25
from start 0 and converts each record with childPageOfRaw, stamping the
parent page id on every result. -/
def GetChildPages {E : Type} (parentPageID : String)
    (resp : Nat → Except E (List RawPage)) (fuel : Nat) :
    Option (Except E (List Page)) :=
  (collectLoop resp 25 fuel 0).map
    (Except.map (fun pr => pr.1.map (childPageOfRaw parentPageID)))

/-! ## Filename sanitiser (getSafeFilename) -/

/-- isReserved holds on the characters the replacer maps away: the nine
path-hostile characters and the space. -/
def isReserved (c : Char) : Bool :=
  c = '/' || c = '\\' || c = ':' || c = '*' || c = '?' ||
  c = '\"' || c = '<' || c = '>' || c = '|' || c = ' '

/-- replaceChar is the per-character action of strings.NewReplacer in
getSafeFilename: every pattern is a single character, the nine
path-hostile characters map to a dash, the space maps to an underscore,
everything else is untouched. -/
def replaceChar (c : Char) : Char :=
  if c = '/' then '-'
  else if c = '\\' then '-'
  else if c = ':' then '-'
  else if c = '*' then '-'
  else if c = '?' then '-'
  else if c = '\"' then '-'
  else if c = '<' then '-'
  else if c = '>' then '-'
  else if c = '|' then '-'
  else if c = ' ' then '_'
  else c

/-- getSafeFilename applies the replacer to the whole title; since all
patterns and replacements are single characters this is a character map. -/
def getSafeFilename (name : String) : String :=
  String.mk (name.data.map replaceChar)

/-! ## Tree resolver (fetchPageTree / collectChildPages)

The resolver queries the remote parent/child relation; `env id` abstracts
a successful `GetChildPages id` call (the error path of the underlying
pagination is modelled in collectLoop above), and `getPage id` abstracts
`GetPage id`.  The Go recursion has no termination guarantee of its own,
so the embedding is fuel-indexed; `none` means the walk did not finish
within the given fuel (in particular, `none` for every fuel means the Go
code never returns). -/

mutual

/-- collectChildPages emits the given page, then the recursively collected
subtree of each of its children in listing order, with no visited-set. -/
def collectChildPages (env : String → List Page) : Nat → Page → Option (List Page)
  | 0, _ => none
  | fuel + 1, page =>
    match collectSubtrees env fuel (env page.ID) with
    | none => none
    | some subs => some (page :: subs)

/-- collectSubtrees is the `for _, child := range children` loop shared by
fetchPageTree and collectChildPages: concatenate the recursively collected
subtrees of the children in order. -/
def collectSubtrees (env : String → List Page) : Nat → List Page → Option (List Page)
  | _, [] => some []
  | fuel, child :: rest =>
    match collectChildPages env fuel child with
    | none => none
    | some sub =>
      match collectSubtrees env fuel rest with
      | none => none
      | some others => some (sub ++ others)

end

/-- fetchPageTree fetches the root page, then the recursively collected
subtrees of its direct children, returning root followed by all
descendants. (`getPage` failure and fuel exhaustion both yield `none`;
the claims below only concern runs where fetches succeed.) -/
def fetchPageTree (getPage : String → Option Page) (env : String → List Page)
    (fuel : Nat) (rootPageID : String) : Option (List Page) :=
  match getPage rootPageID with
  | none => none
  | some rootPage =>
    match collectSubtrees env fuel (env rootPage.ID) with
    | none => none
    | some subs => some (rootPage :: subs)

/-! ## Specification-side page trees

PTree is the reference model of an acyclic page hierarchy used to state
what pre-order means; preorder is the specification traversal the code is
compared against. -/

inductive PTree where
  | node (page : Page) (children : List PTree)
deriving Repr

/-- page of the root node. -/
def PTree.page : PTree → Page
  | .node p _ => p

/-- children subtrees of the root node. -/
def PTree.children : PTree → List PTree
  | .node _ cs => cs

mutual

/-- preorder lists the root page first, then each child subtree in full
before the next sibling subtree. -/
def preorder : PTree → List Page
  | .node p cs => p :: preorderList cs

/-- preorderList concatenates the pre-orders of a forest in order. -/
def preorderList : List PTree → List Page
  | [] => []
  | t :: ts => preorder t ++ preorderList ts

end

mutual

/-- subtreesOf enumerates every node of the tree (as a subtree). -/
def subtreesOf : PTree → List PTree
  | .node p cs => .node p cs :: subtreesOfList cs

/-- subtreesOfList enumerates every node of a forest. -/
def subtreesOfList : List PTree → List PTree
  | [] => []
  | t :: ts => subtreesOf t ++ subtreesOfList ts

end

mutual

/-- depth of a tree (a leaf has depth 1). -/
def depth : PTree → Nat
  | .node _ cs => depthList cs + 1

/-- depthList is the maximal depth over a forest (0 when empty). -/
def depthList : List PTree → Nat
  | [] => 0
  | t :: ts => max (depth t) (depthList ts)

end

/-- consistent states that the remote child listing agrees with the
reference tree at every node: querying a node's id returns exactly the
pages of its children, in order. -/
def consistent (env : String → List Page) (t : PTree) : Prop :=
  ∀ s ∈ subtreesOf t, env s.page.ID = s.children.map PTree.page

/-! ## Transport (sendRequest) -/

/-- HTTPRequest carries the data sendRequest assembles before delegating
to the HTTP client: method, resolved URL and headers. -/
structure HTTPRequest where
  method : String
  url : String
  headers : List (String × String)
deriving Repr, DecidableEq

/-- HTTPResponse is the part of http.Response the exporter looks at.
StatusCode is never inspected by sendRequest itself. -/
structure HTTPResponse where
  statusCode : Nat
  body : String
deriving Repr, DecidableEq

/-- ClientConfig carries the ConfluenceClient fields sendRequest reads. -/
structure ClientConfig where
  baseURL : String
  username : String
  apiToken : String
deriving Repr, DecidableEq

/-- encodeQuery renders query parameters; params.Encode is abstracted to
a direct key=value rendering, which the claims never inspect. -/
def encodeQuery (params : List (String × String)) : String :=
  String.intercalate "&" (params.map (fun kv => kv.1 ++ "=" ++ kv.2))

/-- sendRequest builds the URL from the base URL and endpoint, attaches
the Basic-Authentication and Content-Type headers, and returns whatever
the HTTP client returns — a transport failure as the error, any response
(2xx or not) as the success value, with no status-code check.  `httpDo`
abstracts HTTPClient.Do; base64 is abstracted as the credential pair it
encodes. -/
def sendRequest (httpDo : HTTPRequest → Except String HTTPResponse)
    (c : ClientConfig) (method endpoint : String)
    (params : List (String × String)) : Except String HTTPResponse :=
  let apiURL := c.baseURL ++ endpoint ++ "?" ++ encodeQuery params
  let req : HTTPRequest :=
    { method := method, url := apiURL,
      headers := [("Authorization", "Basic " ++ c.username ++ ":" ++ c.apiToken),
                  ("Content-Type", "application/json")] }
  httpDo req

/-! ## Embedded-store sink (db.InitDB / db.InsertPage)

The pages table of the upsert revision — `uid VARCHAR PRIMARY KEY` with
`INSERT OR REPLACE` — is modelled as a list of rows; INSERT OR REPLACE
on the primary key deletes any row with the same uid and inserts the new
row. -/

/-- DBPage mirrors db.Page. -/
structure DBPage where
  Title : String
  Body : String
  Link : String
  UID : String
deriving Repr, DecidableEq

/-- InitDB creates the pages table empty when it does not exist. -/
def InitDB : List DBPage := []

/-- InsertPage models `INSERT OR REPLACE INTO pages` against the
uid-primary-key table: the new row replaces any existing row with the
same uid. -/
def InsertPage (table : List DBPage) (page : DBPage) : List DBPage :=
  table.filter (fun r => r.UID != page.UID) ++ [page]

/-! ## Pipeline driver (exportSpace) -/

/-- SaveOutcome records what happened to one page in exportSpace's loop:
the page processed and, when handler.SavePage failed, the logged message
(which includes the page's title). -/
structure SaveOutcome where
  page : Page
  logged : Option String
deriving Repr, DecidableEq

/-- processPages is exportSpace's per-page loop: save each page; on
failure log a message naming the page's title and continue with the next
page. -/
def processPages (save : Page → Except String Unit) : List Page → List SaveOutcome
  | [] => []
  | page :: rest =>
    match save page with
    | .ok _ => { page := page, logged := none } :: processPages save rest
    | .error e =>
        { page := page,
          logged := some ("Failed to save page " ++ page.Title ++ ": " ++ e) }
          :: processPages save rest

/-- exportSpace fetches the space's pages (an error there aborts the
scope), then runs the per-page loop and returns nil — success — no
matter how many individual pages failed to save. -/
def exportSpace (pagesResult : Except String (List Page))
    (save : Page → Except String Unit) : Except String (List SaveOutcome) :=
  match pagesResult with
  | .error e => .error ("failed to fetch pages: " ++ e)
  | .ok pages => .ok (processPages save pages)

/-! ## Lemmas about the filename sanitiser -/

theorem replaceChar_not_reserved (c : Char) : isReserved (replaceChar c) = false := by
  unfold replaceChar
  split_ifs with h1 h2 h3 h4 h5 h6 h7 h8 h9 h10 <;> simp_all [isReserved]

theorem replaceChar_eq_self (c : Char) (hc : isReserved c = false) :
    replaceChar c = c := by
  unfold replaceChar
  split_ifs with h1 h2 h3 h4 h5 h6 h7 h8 h9 h10 <;> simp_all [isReserved]

theorem replaceChar_idem (c : Char) :
    replaceChar (replaceChar c) = replaceChar c :=
  replaceChar_eq_self _ (replaceChar_not_reserved c)

/-- C8: for every title, the name produced by getSafeFilename contains none
of the characters / \ : * ? " < > | or space, and every character of the
title outside that set is preserved unchanged at its position. -/
theorem getSafeFilename_safe (s : String) (i : Nat)
    (hi : i < s.data.length)
    (hc : isReserved (s.data.getD i 'a') = false) :
    (∀ c ∈ (getSafeFilename s).data, isReserved c = false) ∧
    (getSafeFilename s).data.getD i 'a' = s.data.getD i 'a' := by
  constructor
  · intro c hmem
    simp only [getSafeFilename, String.mk] at hmem
    obtain ⟨d, _, rfl⟩ := List.mem_map.mp hmem
    exact replaceChar_not_reserved d
  · simp only [getSafeFilename, String.mk]
    rw [List.getD_eq_getElem?_getD, List.getD_eq_getElem?_getD,
      List.getElem?_map, List.getElem?_eq_getElem hi]
    simp only [Option.map_some', Option.getD_some]
    rw [List.getD_eq_getElem?_getD, List.getElem?_eq_getElem hi,
      Option.getD_some] at hc
    exact replaceChar_eq_self _ hc

/-- Witness for C8 on the title "a/b c?.txt". -/
theorem getSafeFilename_safe_witness :
    0 < "a/b c?.txt".data.length ∧
    isReserved ("a/b c?.txt".data.getD 0 'a') = false ∧
    ((∀ c ∈ (getSafeFilename "a/b c?.txt").data, isReserved c = false) ∧
      (getSafeFilename "a/b c?.txt").data.getD 0 'a' =
        "a/b c?.txt".data.getD 0 'a') :=
  ⟨by decide, by decide, getSafeFilename_safe "a/b c?.txt" 0 (by decide) (by decide)⟩

/-- C10: getSafeFilename is idempotent, because the replacement characters
dash and underscore are not themselves in the replaced set. -/
theorem getSafeFilename_idem (s : String) :
    getSafeFilename (getSafeFilename s) = getSafeFilename s := by
  simp only [getSafeFilename, String.mk, List.map_map]
  exact congrArg String.mk (List.map_congr_left fun c _ => replaceChar_idem c)

/-! ## Lemmas about the embedded-store sink -/

theorem rows_filter_ne_eq_nil (t : List DBPage) (u : String) :
    (t.filter (fun r => r.UID != u)).filter (fun r => r.UID == u) = [] := by
  induction t with
  | nil => rfl
  | cons a t ih =>
    by_cases h : a.UID = u <;> simp [h, ih]

/-- C4: inserting a page twice with the same uid but different bodies
leaves exactly one row for that uid, holding the second body (the upsert
replaces the first row). -/
theorem insertPage_upsert (table : List DBPage) (p1 p2 : DBPage)
    (huid : p1.UID = p2.UID) (hbody : p1.Body ≠ p2.Body) :
    (InsertPage (InsertPage table p1) p2).filter (fun r => r.UID == p2.UID)
      = [p2] := by
  unfold InsertPage
  rw [List.filter_append, List.filter_append, List.filter_append]
  have h1 : [p1].filter (fun r => r.UID != p2.UID) = [] := by
    simp [List.filter, huid]
  rw [h1]
  rw [rows_filter_ne_eq_nil (table.filter fun r => r.UID != p1.UID) p2.UID]
  simp [List.filter]

/-- Witness for C4: two inserts of uid "p-1", bodies "v1" then "v2". -/
theorem insertPage_upsert_witness :
    ({ Title := "T", Body := "v1", Link := "l", UID := "p-1" } : DBPage).UID
        = ({ Title := "T", Body := "v2", Link := "l", UID := "p-1" } : DBPage).UID ∧
    ({ Title := "T", Body := "v1", Link := "l", UID := "p-1" } : DBPage).Body
        ≠ ({ Title := "T", Body := "v2", Link := "l", UID := "p-1" } : DBPage).Body ∧
    (InsertPage (InsertPage InitDB
        { Title := "T", Body := "v1", Link := "l", UID := "p-1" })
        { Title := "T", Body := "v2", Link := "l", UID := "p-1" }).filter
      (fun r => r.UID == ({ Title := "T", Body := "v2", Link := "l", UID := "p-1" } : DBPage).UID)
      = [{ Title := "T", Body := "v2", Link := "l", UID := "p-1" }] :=
  ⟨rfl, by decide,
    insertPage_upsert InitDB _ _ rfl (by decide)⟩

/-! ## Lemmas about the transport -/

/-- Counterexample to C5 as stated: a 500 response from the HTTP client is
returned by sendRequest as a successful result, not as an error — the
code never inspects the status code. -/
theorem sendRequest_nonSuccess_counterexample :
    ¬ (∀ (httpDo : HTTPRequest → Except String HTTPResponse)
        (c : ClientConfig) (method endpoint : String)
        (params : List (String × String)) (r : HTTPResponse),
        sendRequest httpDo c method endpoint params = .ok r →
        200 ≤ r.statusCode ∧ r.statusCode < 300) := by
  intro h
  have h2 := h (fun _ => .ok { statusCode := 500, body := "Internal Server Error" })
    { baseURL := "https://example.test", username := "u", apiToken := "t" }
    "GET" "/rest/api/space" []
    { statusCode := 500, body := "Internal Server Error" } rfl
  exact absurd h2.2 (by norm_num)

/-- C5 amended: sendRequest surfaces a transport failure as an error, but
returns every HTTP response — whatever its status code, 2xx or not — as a
successful result, performing no status-code check. -/
theorem sendRequest_passthrough (c : ClientConfig) (method endpoint : String)
    (params : List (String × String)) (e : String) (status : Nat) (body : String) :
    sendRequest (fun _ => .error e) c method endpoint params = .error e ∧
    sendRequest (fun _ => .ok { statusCode := status, body := body })
      c method endpoint params = .ok { statusCode := status, body := body } :=
  ⟨rfl, rfl⟩

/-! ## Lemmas about the pipeline driver -/

theorem processPages_pages (save : Page → Except String Unit) (pages : List Page) :
    (processPages save pages).map SaveOutcome.page = pages := by
  induction pages with
  | nil => rfl
  | cons a rest ih =>
    cases h : save a <;> simp [processPages, h, ih]

/-- C7: a failure to save one page is recorded with a log line naming the
page's title, every page of the space is still processed in order, and
exportSpace returns success for the scope. -/
theorem exportSpace_page_isolation (save : Page → Except String Unit)
    (pages : List Page) (p : Page) (e : String)
    (hp : p ∈ pages) (herr : save p = .error e) :
    ∃ l, exportSpace (.ok pages) save = .ok l ∧
      l.map SaveOutcome.page = pages ∧
      ({ page := p,
         logged := some ("Failed to save page " ++ p.Title ++ ": " ++ e) }
        : SaveOutcome) ∈ l := by
  refine ⟨processPages save pages, rfl, processPages_pages save pages, ?_⟩
  induction pages with
  | nil => exact absurd hp (List.not_mem_nil p)
  | cons a rest ih =>
    rcases List.mem_cons.mp hp with rfl | hmem
    · rw [processPages, herr]
      exact List.mem_cons_self _ _
    · have hmem2 := ih hmem
      cases h : save a <;> rw [processPages, h] <;>
        exact List.mem_cons_of_mem _ hmem2

/-- Witness for C7: a single page whose save fails with "disk full". -/
theorem exportSpace_page_isolation_witness :
    ({ ID := "1", Title := "Home", SpaceKey := "TEAM" } : Page)
        ∈ [({ ID := "1", Title := "Home", SpaceKey := "TEAM" } : Page)] ∧
    (fun _ : Page => (.error "disk full" : Except String Unit))
        { ID := "1", Title := "Home", SpaceKey := "TEAM" } = .error "disk full" ∧
    ∃ l, exportSpace (.ok [{ ID := "1", Title := "Home", SpaceKey := "TEAM" }])
        (fun _ => .error "disk full") = .ok l ∧
      l.map SaveOutcome.page = [{ ID := "1", Title := "Home", SpaceKey := "TEAM" }] ∧
      ({ page := { ID := "1", Title := "Home", SpaceKey := "TEAM" },
         logged := some ("Failed to save page " ++ "Home" ++ ": " ++ "disk full") }
        : SaveOutcome) ∈ l :=
  ⟨List.mem_singleton.mpr rfl, rfl,
    exportSpace_page_isolation (fun _ => .error "disk full") _ _ "disk full"
      (List.mem_singleton.mpr rfl) rfl⟩

/-! ## Lemmas about the paginated collector -/

theorem collectLoop_full_run {E α : Type} (resp : Nat → Except E (List α)) :
    ∀ (k : Nat) (pages : Nat → List α) (fuel start : Nat), k < fuel →
      (∀ i ≤ k, resp (start + 25 * i) = .ok (pages i)) →
      (∀ i < k, 25 ≤ (pages i).length) →
      (pages k).length < 25 →
      collectLoop resp 25 fuel start =
        some (.ok (((List.range (k + 1)).map pages).flatten,
          (List.range (k + 1)).map fun i => start + 25 * i)) := by
  intro k
  induction k with
  | zero =>
    intro pages fuel start hfuel hresp _ hshort
    obtain ⟨fuel, rfl⟩ : ∃ f, fuel = f + 1 := ⟨fuel - 1, by omega⟩
    have h0 := hresp 0 (le_refl 0)
    simp only [Nat.mul_zero, Nat.add_zero] at h0
    simp [collectLoop, h0, if_pos hshort, List.range_succ]
  | succ k ih =>
    intro pages fuel start hfuel hresp hfull hshort
    obtain ⟨fuel, rfl⟩ : ∃ f, fuel = f + 1 := ⟨fuel - 1, by omega⟩
    have h0 := hresp 0 (Nat.zero_le _)
    simp only [Nat.mul_zero, Nat.add_zero] at h0
    have hnot : ¬ (pages 0).length < 25 := by
      have := hfull 0 (Nat.succ_pos k); omega
    have hrec := ih (fun i => pages (i + 1)) fuel (start + 25) (by omega)
      (by
        intro i hi
        rw [show start + 25 + 25 * i = start + 25 * (i + 1) by ring]
        exact hresp (i + 1) (by omega))
      (by intro i hi; exact hfull (i + 1) (by omega))
      hshort
    rw [collectLoop, h0]
    simp only [if_neg hnot, hrec]
    rw [List.range_succ_eq_map (k + 1)]
    simp only [List.map_cons, List.map_map, List.flatten_cons]
    have hA : (List.map (fun i => pages (i + 1)) (List.range (k + 1)))
        = List.map (pages ∘ Nat.succ) (List.range (k + 1)) := by
      apply List.map_congr_left
      intro i _
      rfl
    have hB : (List.map (fun i => start + 25 + 25 * i) (List.range (k + 1)))
        = List.map ((fun i => start + 25 * i) ∘ Nat.succ) (List.range (k + 1)) := by
      apply List.map_congr_left
      intro i _
      simp only [Function.comp_apply, Nat.succ_eq_add_one]
      ring
    rw [hA, hB, Nat.mul_zero, Nat.add_zero]
    rfl

/-- C1: every listing query loop (GetSpaces, GetPages, GetChildPages runs
collectLoop with limit 25 from offset 0) terminates after finitely many
requests — the result is independent of any fuel above the number of pages
— stops exactly at the first page with strictly fewer than 25 records,
requests offsets 0, 25, 50, … (one per page, k + 1 requests in all), and
returns the concatenation of the pages in response order, whose length is
the sum of the per-page record counts. -/
theorem pagination_collects_all {E α : Type} (resp : Nat → Except E (List α))
    (pages : Nat → List α) (k fuel : Nat)
    (hfuel : k < fuel)
    (hresp : ∀ i ≤ k, resp (25 * i) = .ok (pages i))
    (hfull : ∀ i < k, (pages i).length = 25)
    (hshort : (pages k).length < 25) :
    collectLoop resp 25 fuel 0 =
      some (.ok (((List.range (k + 1)).map pages).flatten,
        (List.range (k + 1)).map fun i => 25 * i)) ∧
    (((List.range (k + 1)).map pages).flatten).length =
      ((List.range (k + 1)).map fun i => (pages i).length).sum ∧
    ((List.range (k + 1)).map fun i => 25 * i).length = k + 1 := by
  refine ⟨?_, ?_, ?_⟩
  · have h := collectLoop_full_run resp k pages fuel 0 hfuel
      (by intro i hi; rw [Nat.zero_add]; exact hresp i hi)
      (by intro i hi; rw [hfull i hi])
      hshort
    simpa using h
  · rw [List.length_flatten, List.map_map]
    rfl
  · simp

/-- Witness for C1: 30 records served as a page of 25 then a page of 5
arrive in 2 requests at offsets 0 and 25, 30 records in all. -/
theorem pagination_collects_all_witness :
    (1 : Nat) < 2 ∧
    (∀ i ≤ 1, (fun start => if start = 0 then
        (.ok (List.range 25) : Except String (List Nat)) else .ok (List.range 5)) (25 * i)
      = .ok ((fun i => if i = 0 then List.range 25 else List.range 5) i)) ∧
    (∀ i < 1, ((fun i : Nat => if i = 0 then List.range 25 else List.range 5) i).length = 25) ∧
    ((fun i : Nat => if i = 0 then List.range 25 else List.range 5) 1).length < 25 ∧
    (collectLoop (fun start => if start = 0 then
        (.ok (List.range 25) : Except String (List Nat)) else .ok (List.range 5)) 25 2 0 =
      some (.ok (((List.range 2).map fun i => if i = 0 then List.range 25 else List.range 5).flatten,
        (List.range 2).map fun i => 25 * i)) ∧
    (((List.range 2).map fun i : Nat => if i = 0 then List.range 25 else List.range 5).flatten).length =
      ((List.range 2).map fun i => ((fun i : Nat => if i = 0 then List.range 25 else List.range 5) i).length).sum ∧
    ((List.range 2).map fun i => 25 * i).length = 1 + 1) :=
  ⟨by decide, by intro i hi; interval_cases i <;> rfl,
    by intro i hi; interval_cases i <;> rfl, by decide,
    pagination_collects_all
      (fun start => if start = 0 then
        (.ok (List.range 25) : Except String (List Nat)) else .ok (List.range 5))
      (fun i => if i = 0 then List.range 25 else List.range 5) 1 2 (by decide)
      (by intro i hi; interval_cases i <;> rfl)
      (by intro i hi; interval_cases i <;> rfl) (by decide)⟩

theorem collectLoop_error_run {E α : Type} (resp : Nat → Except E (List α)) :
    ∀ (k : Nat) (pages : Nat → List α) (fuel start : Nat) (e : E), k < fuel →
      (∀ i < k, resp (start + 25 * i) = .ok (pages i)) →
      (∀ i < k, 25 ≤ (pages i).length) →
      resp (start + 25 * k) = .error e →
      collectLoop resp 25 fuel start = some (.error e) := by
  intro k
  induction k with
  | zero =>
    intro pages fuel start e hfuel _ _ herr
    obtain ⟨fuel, rfl⟩ : ∃ f, fuel = f + 1 := ⟨fuel - 1, by omega⟩
    simp only [Nat.mul_zero, Nat.add_zero] at herr
    simp [collectLoop, herr]
  | succ k ih =>
    intro pages fuel start e hfuel hresp hfull herr
    obtain ⟨fuel, rfl⟩ : ∃ f, fuel = f + 1 := ⟨fuel - 1, by omega⟩
    have h0 := hresp 0 (Nat.succ_pos k)
    simp only [Nat.mul_zero, Nat.add_zero] at h0
    have hnot : ¬ (pages 0).length < 25 := by
      have := hfull 0 (Nat.succ_pos k); omega
    have hrec := ih (fun i => pages (i + 1)) fuel (start + 25) e (by omega)
      (by
        intro i hi
        rw [show start + 25 + 25 * i = start + 25 * (i + 1) by ring]
        exact hresp (i + 1) (by omega))
      (by intro i hi; exact hfull (i + 1) (by omega))
      (by
        rw [show start + 25 + 25 * k = start + 25 * (k + 1) by ring]
        exact herr)
    rw [collectLoop, h0]
    simp only [if_neg hnot, hrec]

/-- C6: if amid a paginated collection any page's fetch or decode fails,
the whole GetPages call returns exactly that error: the records of the
pages already received are discarded, all-or-nothing per call. -/
theorem getPages_error_all_or_nothing {E : Type}
    (resp : Nat → Except E (List RawPage)) (pages : Nat → List RawPage)
    (k fuel : Nat) (e : E)
    (hfuel : k < fuel)
    (hok : ∀ i < k, resp (25 * i) = .ok (pages i))
    (hfull : ∀ i < k, (pages i).length = 25)
    (herr : resp (25 * k) = .error e) :
    GetPages resp fuel = some (.error e) := by
  have h := collectLoop_error_run resp k pages fuel 0 e hfuel
    (by intro i hi; rw [Nat.zero_add]; exact hok i hi)
    (by intro i hi; rw [hfull i hi])
    (by rw [Nat.zero_add]; exact herr)
  rw [GetPages, h]
  rfl

/-- Witness for C6: a full first page of 25 records followed by an error
on the second request yields the error and no records. -/
theorem getPages_error_all_or_nothing_witness :
    (1 : Nat) < 2 ∧
    (∀ i < 1, (fun start => if start = 0 then
        .ok ((List.range 25).map fun n =>
          ({ id := toString n, title := "t", spaceKey := "S",
             bodyValue := "b", versionNumber := 1, webui := "u" } : RawPage))
        else (.error "connection reset" : Except String (List RawPage))) (25 * i)
      = .ok ((fun _ => (List.range 25).map fun n =>
          ({ id := toString n, title := "t", spaceKey := "S",
             bodyValue := "b", versionNumber := 1, webui := "u" } : RawPage)) i)) ∧
    (∀ i < 1, ((fun _ : Nat => (List.range 25).map fun n =>
        ({ id := toString n, title := "t", spaceKey := "S",
           bodyValue := "b", versionNumber := 1, webui := "u" } : RawPage)) i).length = 25) ∧
    (fun start => if start = 0 then
        .ok ((List.range 25).map fun n =>
          ({ id := toString n, title := "t", spaceKey := "S",
             bodyValue := "b", versionNumber := 1, webui := "u" } : RawPage))
        else (.error "connection reset" : Except String (List RawPage))) (25 * 1)
      = .error "connection reset" ∧
    GetPages (fun start => if start = 0 then
        .ok ((List.range 25).map fun n =>
          ({ id := toString n, title := "t", spaceKey := "S",
             bodyValue := "b", versionNumber := 1, webui := "u" } : RawPage))
        else (.error "connection reset" : Except String (List RawPage))) 2
      = some (.error "connection reset") :=
  ⟨by decide, by intro i hi; interval_cases i <;> rfl,
    by intro i hi; interval_cases i <;> rfl, rfl,
    getPages_error_all_or_nothing
      (fun start => if start = 0 then
        .ok ((List.range 25).map fun n =>
          ({ id := toString n, title := "t", spaceKey := "S",
             bodyValue := "b", versionNumber := 1, webui := "u" } : RawPage))
        else (.error "connection reset" : Except String (List RawPage)))
      (fun _ => (List.range 25).map fun n =>
          ({ id := toString n, title := "t", spaceKey := "S",
             bodyValue := "b", versionNumber := 1, webui := "u" } : RawPage))
      1 2 "connection reset" (by decide)
      (by intro i hi; interval_cases i <;> rfl)
      (by intro i hi; interval_cases i <;> rfl) rfl⟩

/-- C9: every page returned by GetChildPages carries the queried parent
page id in ParentID, while every page returned by GetPages (the space
listing) has an empty ParentID. -/
theorem childPages_parent_stamp {E : Type} (parentPageID : String)
    (respC respP : Nat → Except E (List RawPage)) (fuelC fuelP : Nat)
    (ps qs : List Page)
    (hc : GetChildPages parentPageID respC fuelC = some (.ok ps))
    (hp : GetPages respP fuelP = some (.ok qs)) :
    (∀ p ∈ ps, p.ParentID = parentPageID) ∧ (∀ q ∈ qs, q.ParentID = "") := by
  constructor
  · rw [GetChildPages] at hc
    obtain ⟨x, hx, hmap⟩ := Option.map_eq_some'.mp hc
    cases x with
    | error e => simp [Except.map] at hmap
    | ok pr =>
      simp only [Except.map, Except.ok.injEq] at hmap
      intro p hpmem
      rw [← hmap] at hpmem
      obtain ⟨r, _, rfl⟩ := List.mem_map.mp hpmem
      rfl
  · rw [GetPages] at hp
    obtain ⟨x, hx, hmap⟩ := Option.map_eq_some'.mp hp
    cases x with
    | error e => simp [Except.map] at hmap
    | ok pr =>
      simp only [Except.map, Except.ok.injEq] at hmap
      intro q hqmem
      rw [← hmap] at hqmem
      obtain ⟨r, _, rfl⟩ := List.mem_map.mp hqmem
      rfl

/-- Witness for C9: one child record under parent "P" and one space-listing
record, both served as a single short page. -/
theorem childPages_parent_stamp_witness :
    GetChildPages "P" (fun _ =>
        (.ok [{ id := "7", title := "t", spaceKey := "S", bodyValue := "b",
                versionNumber := 1, webui := "u" }] : Except String (List RawPage))) 1
      = some (.ok [childPageOfRaw "P"
          { id := "7", title := "t", spaceKey := "S", bodyValue := "b",
            versionNumber := 1, webui := "u" }]) ∧
    GetPages (fun _ =>
        (.ok [{ id := "8", title := "t2", spaceKey := "S", bodyValue := "b2",
                versionNumber := 2, webui := "u2" }] : Except String (List RawPage))) 1
      = some (.ok [pageOfRaw
          { id := "8", title := "t2", spaceKey := "S", bodyValue := "b2",
            versionNumber := 2, webui := "u2" }]) ∧
    ((∀ p ∈ [childPageOfRaw "P"
          { id := "7", title := "t", spaceKey := "S", bodyValue := "b",
            versionNumber := 1, webui := "u" }], p.ParentID = "P") ∧
      (∀ q ∈ [pageOfRaw
          { id := "8", title := "t2", spaceKey := "S", bodyValue := "b2",
            versionNumber := 2, webui := "u2" }], q.ParentID = "")) :=
  ⟨rfl, rfl,
    childPages_parent_stamp "P"
      (fun _ =>
        (.ok [{ id := "7", title := "t", spaceKey := "S", bodyValue := "b",
                versionNumber := 1, webui := "u" }] : Except String (List RawPage)))
      (fun _ =>
        (.ok [{ id := "8", title := "t2", spaceKey := "S", bodyValue := "b2",
                versionNumber := 2, webui := "u2" }] : Except String (List RawPage)))
      1 1 _ _ rfl rfl⟩

/-! ## Lemmas about the tree resolver -/

theorem one_le_depth (t : PTree) : 1 ≤ depth t := by
  cases t
  rw [depth]
  omega

theorem depth_le_depthList (t : PTree) (ts : List PTree) (h : t ∈ ts) :
    depth t ≤ depthList ts := by
  induction ts with
  | nil => cases h
  | cons a ts ih =>
    rw [depthList]
    rcases List.mem_cons.mp h with rfl | h2
    · exact le_max_left _ _
    · exact le_trans (ih h2) (le_max_right _ _)

theorem self_mem_subtreesOf (t : PTree) : t ∈ subtreesOf t := by
  cases t
  rw [subtreesOf]
  exact List.mem_cons_self _ _

theorem mem_subtreesOfList_of_mem (c : PTree) (cs : List PTree) (hc : c ∈ cs)
    (s : PTree) (hs : s ∈ subtreesOf c) : s ∈ subtreesOfList cs := by
  induction cs with
  | nil => cases hc
  | cons a cs ih =>
    rw [subtreesOfList]
    rcases List.mem_cons.mp hc with rfl | h2
    · exact List.mem_append_left _ hs
    · exact List.mem_append_right _ (ih h2)

theorem consistent_child (env : String → List Page) (p : Page) (cs : List PTree)
    (h : consistent env (.node p cs)) (c : PTree) (hc : c ∈ cs) :
    consistent env c := by
  intro s hs
  apply h
  rw [subtreesOf]
  exact List.mem_cons_of_mem _ (mem_subtreesOfList_of_mem c cs hc s hs)

theorem collect_run (env : String → List Page) :
    ∀ fuel : Nat,
      (∀ t : PTree, depth t ≤ fuel → consistent env t →
        collectChildPages env fuel t.page = some (preorder t)) ∧
      (∀ ts : List PTree,
        (∀ t ∈ ts, depth t ≤ fuel) →
        (∀ t ∈ ts, consistent env t) →
        collectSubtrees env fuel (ts.map PTree.page) = some (preorderList ts)) := by
  intro fuel
  induction fuel with
  | zero =>
    constructor
    · intro t hd _
      have := one_le_depth t
      omega
    · intro ts hd _
      cases ts with
      | nil => simp [collectSubtrees, preorderList]
      | cons a ts =>
        have h1 := one_le_depth a
        have h2 := hd a (List.mem_cons_self _ _)
        omega
  | succ fuel ih =>
    have treeStep : ∀ t : PTree, depth t ≤ fuel + 1 → consistent env t →
        collectChildPages env (fuel + 1) t.page = some (preorder t) := by
      intro t hd hcons
      cases t with
      | node p cs =>
        have henv : env p.ID = cs.map PTree.page := by
          have h := hcons (.node p cs) (self_mem_subtreesOf _)
          rw [PTree.page, PTree.children] at h
          exact h
        have hdl : depthList cs ≤ fuel := by
          rw [depth] at hd
          omega
        have hrec := ih.2 cs
          (fun c hc => le_trans (depth_le_depthList c cs hc) hdl)
          (fun c hc => consistent_child env p cs hcons c hc)
        rw [PTree.page, collectChildPages, henv, hrec, preorder]
    constructor
    · exact treeStep
    · intro ts hd hcons
      induction ts with
      | nil => simp [collectSubtrees, preorderList]
      | cons a ts ihl =>
        rw [List.map_cons, collectSubtrees,
          treeStep a (hd a (List.mem_cons_self _ _)) (hcons a (List.mem_cons_self _ _)),
          ihl (fun t ht => hd t (List.mem_cons_of_mem _ ht))
            (fun t ht => hcons t (List.mem_cons_of_mem _ ht)),
          preorderList]

mutual

theorem preorder_eq_subtrees : ∀ t : PTree,
    preorder t = (subtreesOf t).map PTree.page
  | .node p cs => by
    rw [preorder, subtreesOf, List.map_cons, PTree.page,
      preorderList_eq_subtrees cs]

theorem preorderList_eq_subtrees : ∀ ts : List PTree,
    preorderList ts = (subtreesOfList ts).map PTree.page
  | [] => rfl
  | t :: ts => by
    rw [preorderList, subtreesOfList, List.map_append,
      preorder_eq_subtrees t, preorderList_eq_subtrees ts]

end

/-- C3: on an acyclic page tree whose remote child listings agree with the
tree at every node, fetchPageTree returns exactly the pre-order traversal
— root first, each child subtree fully emitted before the next sibling
subtree — and that traversal lists each node of the tree once, in
pre-order. -/
theorem fetchPageTree_preorder (getPage : String → Option Page)
    (env : String → List Page) (t : PTree) (rootPageID : String) (fuel : Nat)
    (hroot : getPage rootPageID = some t.page)
    (hcons : consistent env t)
    (hfuel : depth t ≤ fuel + 1) :
    fetchPageTree getPage env fuel rootPageID = some (preorder t) ∧
    preorder t = (subtreesOf t).map PTree.page := by
  refine ⟨?_, preorder_eq_subtrees t⟩
  cases t with
  | node p cs =>
    have henv : env p.ID = cs.map PTree.page := by
      have h := hcons (.node p cs) (self_mem_subtreesOf _)
      rw [PTree.page, PTree.children] at h
      exact h
    have hdl : depthList cs ≤ fuel := by
      rw [depth] at hfuel
      omega
    have hrec := (collect_run env fuel).2 cs
      (fun c hc => le_trans (depth_le_depthList c cs hc) hdl)
      (fun c hc => consistent_child env p cs hcons c hc)
    simp only [PTree.page] at hroot
    rw [fetchPageTree, hroot]
    simp only [PTree.page]
    rw [henv, hrec, preorder]

/-- Witness for C3: root R with children A and B, where A has child A1,
resolves to R, A, A1, B in that order. -/
theorem fetchPageTree_preorder_witness :
    (fun id => if id = "R" then
        some ({ ID := "R", Title := "R", SpaceKey := "S" } : Page) else none) "R"
      = some (PTree.node { ID := "R", Title := "R", SpaceKey := "S" }
          [PTree.node { ID := "A", Title := "A", SpaceKey := "S" }
            [PTree.node { ID := "A1", Title := "A1", SpaceKey := "S" } []],
           PTree.node { ID := "B", Title := "B", SpaceKey := "S" } []]).page ∧
    consistent
      (fun id => if id = "R" then
          [{ ID := "A", Title := "A", SpaceKey := "S" },
           { ID := "B", Title := "B", SpaceKey := "S" }]
        else if id = "A" then [{ ID := "A1", Title := "A1", SpaceKey := "S" }]
        else [])
      (PTree.node { ID := "R", Title := "R", SpaceKey := "S" }
        [PTree.node { ID := "A", Title := "A", SpaceKey := "S" }
          [PTree.node { ID := "A1", Title := "A1", SpaceKey := "S" } []],
         PTree.node { ID := "B", Title := "B", SpaceKey := "S" } []]) ∧
    depth (PTree.node { ID := "R", Title := "R", SpaceKey := "S" }
        [PTree.node { ID := "A", Title := "A", SpaceKey := "S" }
          [PTree.node { ID := "A1", Title := "A1", SpaceKey := "S" } []],
         PTree.node { ID := "B", Title := "B", SpaceKey := "S" } []]) ≤ 2 + 1 ∧
    (fetchPageTree
        (fun id => if id = "R" then
          some ({ ID := "R", Title := "R", SpaceKey := "S" } : Page) else none)
        (fun id => if id = "R" then
            [{ ID := "A", Title := "A", SpaceKey := "S" },
             { ID := "B", Title := "B", SpaceKey := "S" }]
          else if id = "A" then [{ ID := "A1", Title := "A1", SpaceKey := "S" }]
          else [])
        2 "R"
      = some (preorder (PTree.node { ID := "R", Title := "R", SpaceKey := "S" }
          [PTree.node { ID := "A", Title := "A", SpaceKey := "S" }
            [PTree.node { ID := "A1", Title := "A1", SpaceKey := "S" } []],
           PTree.node { ID := "B", Title := "B", SpaceKey := "S" } []])) ∧
      preorder (PTree.node { ID := "R", Title := "R", SpaceKey := "S" }
          [PTree.node { ID := "A", Title := "A", SpaceKey := "S" }
            [PTree.node { ID := "A1", Title := "A1", SpaceKey := "S" } []],
           PTree.node { ID := "B", Title := "B", SpaceKey := "S" } []])
        = (subtreesOf (PTree.node { ID := "R", Title := "R", SpaceKey := "S" }
            [PTree.node { ID := "A", Title := "A", SpaceKey := "S" }
              [PTree.node { ID := "A1", Title := "A1", SpaceKey := "S" } []],
             PTree.node { ID := "B", Title := "B", SpaceKey := "S" } []])).map
            PTree.page) :=
  ⟨rfl,
    by
      intro s hs
      simp only [subtreesOf, subtreesOfList, List.mem_cons, List.mem_append,
        List.not_mem_nil, or_false, false_or, or_assoc, List.append_nil] at hs
      rcases hs with rfl | rfl | rfl | rfl <;> rfl,
    by simp [depth, depthList],
    fetchPageTree_preorder _ _
      (PTree.node { ID := "R", Title := "R", SpaceKey := "S" }
        [PTree.node { ID := "A", Title := "A", SpaceKey := "S" }
          [PTree.node { ID := "A1", Title := "A1", SpaceKey := "S" } []],
         PTree.node { ID := "B", Title := "B", SpaceKey := "S" } []])
      "R" 2 rfl
      (by
        intro s hs
        simp only [subtreesOf, subtreesOfList, List.mem_cons, List.mem_append,
          List.not_mem_nil, or_false, false_or, or_assoc, List.append_nil] at hs
        rcases hs with rfl | rfl | rfl | rfl <;> rfl)
      (by simp [depth, depthList])⟩

theorem collectChildPages_selfloop_none : ∀ fuel : Nat,
    collectChildPages (fun _ => [{ ID := "A", Title := "A", SpaceKey := "S" }])
      fuel { ID := "A", Title := "A", SpaceKey := "S" } = none := by
  intro fuel
  induction fuel with
  | zero => rw [collectChildPages]
  | succ fuel ih =>
    rw [collectChildPages, collectSubtrees, ih]

/-- C2 fails on the code: the walk keeps no visited-set, so on the cyclic
id-graph where page A lists itself as its own child, fetchPageTree never
completes — for every fuel bound the embedded recursion runs out of fuel,
which is non-termination of the unguarded Go recursion. -/
theorem fetchPageTree_cycle_never_completes : ∀ fuel : Nat,
    fetchPageTree
      (fun _ => some { ID := "A", Title := "A", SpaceKey := "S" })
      (fun _ => [{ ID := "A", Title := "A", SpaceKey := "S" }])
      fuel "A" = none := by
  intro fuel
  rw [fetchPageTree]
  simp only []
  rw [collectSubtrees, collectChildPages_selfloop_none fuel]

end ConfluenceExporter
